import Mathlib

/-!
Shallow embedding of the voxel-world core of the repository
(`src/minecraft_clone/engine/world.py`): the block-type constants, the
`Chunk` block store with its face-visibility test, the `World` chunk map
with its world-space accessors, and the noise-driven terrain generator.

External effects are modelled as explicit parameters: the `noise` library
and NumPy's global random stream become oracle functions, OpenGL state
(`display_list`, the mesh emission) is out of scope, and the mutable chunk
dictionary becomes a function `Int × Int × Int → Option Chunk` threaded
through state-passing definitions.  Python machine floats are modelled as
exact rationals, `//` and `%` on `int` as `Int.fdiv` / `Int.fmod`
(Python's floored division and modulus), and `int(...)` as truncation
toward zero.
-/

namespace MinecraftClone

-- Block type constants from `class Block` (world.py lines 15-24).
namespace Block

def AIR : Nat := 0

def GRASS : Nat := 1

def DIRT : Nat := 2

def STONE : Nat := 3

def SAND : Nat := 4

def WATER : Nat := 5

def SNOW : Nat := 6

def BEDROCK : Nat := 7

def WOOD : Nat := 8

def LEAVES : Nat := 9

end Block

/-- A chunk (world.py `class Chunk`).  `blocks` models the `np.uint8`
array `self.blocks`, total over `Int` indices but only read or written
under the source's bounds guards; `position` is the chunk-grid coordinate
triple, `size` the edge length (always 16 as constructed by `World`).
The OpenGL `display_list` field is rendering state outside the core and is
omitted; the mutable back-reference `self.world` (only ever read through
`self.world.get_block` inside `_is_face_visible`) is modelled as the
optional lookup argument of `Chunk.is_face_visible`. -/
structure Chunk where
  position : Int × Int × Int
  size : Nat
  blocks : Int → Int → Int → Nat
  needs_update : Bool

/-- Constructor `Chunk.__init__`: a zeroed (all-AIR) block array with
`needs_update = True`. -/
def Chunk.init (position : Int × Int × Int) (size : Nat) : Chunk :=
  { position := position, size := size, blocks := fun _ _ _ => 0, needs_update := true }

/-- The bounds test `0 <= x < self.size and 0 <= y < self.size and
0 <= z < self.size` used by the chunk accessors. -/
abbrev Chunk.inBounds (c : Chunk) (x y z : Int) : Prop :=
  0 ≤ x ∧ x < (c.size : Int) ∧ 0 ≤ y ∧ y < (c.size : Int) ∧ 0 ≤ z ∧ z < (c.size : Int)

/-- `Chunk.set_block` (world.py lines 80-84): inside bounds, store the
value into the `np.uint8` array (which reduces it modulo 256) and set
`needs_update`; outside bounds, do nothing. -/
def Chunk.set_block (c : Chunk) (x y z : Int) (block_type : Nat) : Chunk :=
  if c.inBounds x y z then
    { c with
      blocks := fun a b d => if a = x ∧ b = y ∧ d = z then block_type % 256 else c.blocks a b d,
      needs_update := true }
  else c

/-- `Chunk.get_block` (world.py lines 86-90): the stored value inside
bounds, `Block.AIR` outside. -/
def Chunk.get_block (c : Chunk) (x y z : Int) : Nat :=
  if c.inBounds x y z then c.blocks x y z else Block.AIR

/-- `Chunk._is_face_visible` (world.py lines 92-119).  `w` is the optional
world back-reference, abstracted as the `World.get_block` lookup it is
used for (`hasattr(self, 'world')` holding iff `w` is `some`). -/
def Chunk.is_face_visible (c : Chunk) (w : Option (Int → Int → Int → Nat))
    (x y z dx dy dz : Int) : Bool :=
  let nx := x + dx
  let ny := y + dy
  let nz := z + dz
  if ¬ c.inBounds nx ny nz then
    if dy = 1 ∨ dx ≠ 0 ∨ dz ≠ 0 then
      true
    else
      let wx := x + c.position.1 * (c.size : Int)
      let wy := y + c.position.2.1 * (c.size : Int)
      let wz := z + c.position.2.2 * (c.size : Int)
      match w with
      | some get => decide (get (wx + dx) (wy + dy) (wz + dz) = Block.AIR)
      | none => true
  else
    decide (c.blocks nx ny nz = Block.AIR)

/-- The six axis-aligned face directions, in the order `generate_mesh`
tests them (top, bottom, front, back, right, left). -/
def faceDirections : List (Int × Int × Int) :=
  [(0, 1, 0), (0, -1, 0), (0, 0, 1), (0, 0, -1), (1, 0, 0), (-1, 0, 0)]

/-- Number of the six faces of the block at `(x, y, z)` that
`_is_face_visible` reports visible, i.e. the number of quads
`generate_mesh` emits for that block when it is not AIR. -/
def Chunk.visibleFaceCount (c : Chunk) (w : Option (Int → Int → Int → Nat))
    (x y z : Int) : Nat :=
  (faceDirections.filter (fun d => c.is_face_visible w x y z d.1 d.2.1 d.2.2)).length

/-- The world (world.py `class World`).  The Python dict `self.chunks` is
modelled as a function from chunk-coordinate triples to `Option Chunk`;
`camera_start_height` is camera state outside the core and is omitted.
The constructor fixes `chunk_size = 16` and `height = 2`. -/
structure World where
  world_size : Nat
  chunk_size : Nat
  height : Nat
  chunks : Int × Int × Int → Option Chunk

/-- `World.get_chunk` (world.py lines 372-374): `self.chunks.get((x,y,z))`. -/
def World.get_chunk (w : World) (x y z : Int) : Option Chunk :=
  w.chunks (x, y, z)

/-- The chunk-coordinate computation `v // self.chunk_size` shared by
`World.get_block` and `World.set_block`; Python `//` on `int` is floored
division, `Int.fdiv`. -/
def World.chunkCoordOf (w : World) (v : Int) : Int :=
  Int.fdiv v (w.chunk_size : Int)

/-- The local-coordinate computation `v % self.chunk_size` shared by
`World.get_block` and `World.set_block`; Python `%` on `int` is the floored
modulus, `Int.fmod`. -/
def World.localCoordOf (w : World) (v : Int) : Int :=
  Int.fmod v (w.chunk_size : Int)

/-- `World.get_block` (world.py lines 376-394). -/
def World.get_block (w : World) (x y z : Int) : Nat :=
  match w.get_chunk (w.chunkCoordOf x) (w.chunkCoordOf y) (w.chunkCoordOf z) with
  | none => Block.AIR
  | some chunk => chunk.get_block (w.localCoordOf x) (w.localCoordOf y) (w.localCoordOf z)

/-- `World.set_block` (world.py lines 396-414): a no-op when the target
chunk does not exist, otherwise `chunk.set_block` on the target chunk (an
in-place mutation in Python, modelled as updating the map at that key). -/
def World.set_block (w : World) (x y z : Int) (block_type : Nat) : World :=
  match w.get_chunk (w.chunkCoordOf x) (w.chunkCoordOf y) (w.chunkCoordOf z) with
  | none => w
  | some chunk =>
    { w with chunks := fun c =>
        if c = (w.chunkCoordOf x, w.chunkCoordOf y, w.chunkCoordOf z) then
          some (chunk.set_block (w.localCoordOf x) (w.localCoordOf y) (w.localCoordOf z)
            block_type)
        else w.chunks c }

/-- Parameter record of one `noise.pnoise2` call.  The library is external
to the repository; calls are interpreted by an oracle (`Noise2`).  The
`repeatx`/`repeaty` defaults of the library (1024) are filled in where the
source omits them. -/
structure NoiseParams where
  octaves : Nat
  persistence : ℚ
  lacunarity : ℚ
  repeatx : ℚ
  repeaty : ℚ
  base : Int

/-- Oracle for `noise.pnoise2`: a pure function of the sample point and the
parameter record. -/
abbrev Noise2 := ℚ → ℚ → NoiseParams → ℚ

/-- Oracle for NumPy's global random stream: the `k`-th call of
`np.random.random()` returns `rnd k`. -/
abbrev RandStream := Nat → ℚ

/-- State threaded through `_generate_terrain`: the world being filled,
the index of the next `np.random.random()` draw, and the local
`tree_positions` list. -/
structure GenState where
  world : World
  ridx : Nat
  trees : List (Int × Int × Int)

/-- One `np.random.random()` draw. -/
def drawRand (rnd : RandStream) (st : GenState) : ℚ × GenState :=
  (rnd st.ridx, { st with ridx := st.ridx + 1 })

/-- Python `range(a, b)` over integers. -/
def intRange (a b : Int) : List Int :=
  (List.range (b - a).toNat).map (fun i : Nat => a + (i : Int))

/-- Python `int(...)` on a real value: truncation toward zero. -/
def pyInt (q : ℚ) : Int :=
  if q < 0 then ⌈q⌉ else ⌊q⌋

/-- The surface height of a column from its noise sample (world.py lines
291-293): `height = int((height_value + 1) * 10) + 16` followed by
`height = max(height, 1)`. -/
def columnHeight (height_value : ℚ) : Int :=
  max (pyInt ((height_value + 1) * 10) + 16) 1

/-- The per-cell block-type choice of `_generate_terrain` (world.py lines
319-354), consuming one random draw in the `world_y < 5` branch. -/
def terrainBlock (rnd : RandStream) (world_y height : Int) (temperature moisture : ℚ)
    (st : GenState) : Nat × GenState :=
  if world_y = 0 then
    (Block.BEDROCK, st)
  else if world_y < 5 then
    let r := drawRand rnd st;
    (if r.1 < (0.7 : ℚ) then Block.BEDROCK else Block.STONE, r.2)
  else if world_y < height - 4 then
    (Block.STONE, st)
  else if world_y < height - 1 then
    (if temperature < (0.2 : ℚ) then Block.STONE else Block.DIRT, st)
  else if world_y < height then
    (if temperature < (0.2 : ℚ) then Block.SNOW
     else if temperature < (0.4 : ℚ) ∧ moisture > (0.6 : ℚ) then Block.STONE
     else if moisture < (0.3 : ℚ) then Block.SAND
     else Block.GRASS, st)
  else if world_y = height ∧ world_y < 10 then
    (Block.WATER, st)
  else
    (Block.AIR, st)

/-- The tree-placement check of `_generate_terrain` (world.py lines
356-367).  Python's short-circuit draws the random number only when the
block is GRASS; `has_space` scans the eight cells above via
`self.get_block`; a passing position is appended to `tree_positions`. -/
def treeCheck (rnd : RandStream) (world_x world_y world_z : Int) (block_type : Nat)
    (st : GenState) : GenState :=
  if block_type = Block.GRASS then
    let r := drawRand rnd st;
    if r.1 < (0.005 : ℚ) ∧ world_y > 10 then
      let has_space := (intRange 1 8).all
        (fun check_y => r.2.world.get_block world_x (world_y + check_y) world_z == Block.AIR)
      if has_space then { r.2 with trees := r.2.trees ++ [(world_x, world_y, world_z)] }
      else r.2
    else r.2
  else st

/-- Store an updated chunk back into the map at key `K`: how this
embedding renders Python's in-place mutation of the chunk object held in
`self.chunks[K]`. -/
def setChunkAt (w : World) (K : Int × Int × Int) (ch : Chunk) : World :=
  { w with chunks := fun c => if c = K then some ch else w.chunks c }

/-- The body of the innermost `for y in range(self.chunk_size)` loop of
`_generate_terrain` (world.py lines 296-370) for one cell: skip if the
chunk is missing, sample biome noise, derive temperature and moisture,
choose the block type, run the tree check, and store the block into the
chunk fetched from the map. -/
def genCell (noise2 : Noise2) (rnd : RandStream) (scale : ℚ) (seed : Int)
    (chunk_x chunk_z : Int) (chunk_y : Nat) (x z : Nat) (height : Int) (y : Nat)
    (st : GenState) : GenState :=
  match st.world.chunks (chunk_x, (chunk_y : Int), chunk_z) with
  | none => st
  | some chunk =>
    let world_x := chunk_x * (st.world.chunk_size : Int) + (x : Int)
    let world_z := chunk_z * (st.world.chunk_size : Int) + (z : Int)
    let world_y := (chunk_y : Int) * (st.world.chunk_size : Int) + (y : Int)
    let biome_value := noise2 ((world_x : ℚ) / (scale * 2)) ((world_z : ℚ) / (scale * 2))
      { octaves := 2, persistence := 0.5, lacunarity := 2.0,
        repeatx := 1024, repeaty := 1024, base := seed + 100 }
    let temperature := (1.0 : ℚ) - ((world_y : ℚ) / (40.0 : ℚ)) + biome_value * (0.5 : ℚ)
    let moisture := (biome_value + 1) / (2.0 : ℚ)
    let bt := terrainBlock rnd world_y height temperature moisture st
    let st2 := treeCheck rnd world_x world_y world_z bt.1 bt.2
    let nw := setChunkAt st2.world (chunk_x, (chunk_y : Int), chunk_z)
      (chunk.set_block (x : Int) (y : Int) (z : Int) bt.1)
    { st2 with world := nw }

/-- One `(x, z)` column of `_generate_terrain` (world.py lines 274-303):
sample the height noise once, derive the column height, then fill every
vertical cell across the chunk stack. -/
def genColumn (noise2 : Noise2) (rnd : RandStream) (scale : ℚ) (octaves : Nat)
    (persistence lacunarity : ℚ) (seed : Int) (chunk_x chunk_z : Int) (x z : Nat)
    (st : GenState) : GenState :=
  let world_x := chunk_x * (st.world.chunk_size : Int) + (x : Int)
  let world_z := chunk_z * (st.world.chunk_size : Int) + (z : Int)
  let height_value := noise2 ((world_x : ℚ) / scale) ((world_z : ℚ) / scale)
    { octaves := octaves, persistence := persistence, lacunarity := lacunarity,
      repeatx := 1024, repeaty := 1024, base := seed }
  let height := columnHeight height_value
  (List.range st.world.height).foldl (fun st1 chunk_y =>
    (List.range st1.world.chunk_size).foldl (fun st2 y =>
      genCell noise2 rnd scale seed chunk_x chunk_z chunk_y x z height y st2) st1) st

/-- The full loop nest of `World._generate_terrain` (world.py lines
258-370) with its fixed parameters, as a fold over the generation state. -/
def terrainFold (w : World) (noise2 : Noise2) (rnd : RandStream) : GenState :=
  let scale : ℚ := 20.0
  let octaves : Nat := 6
  let persistence : ℚ := 0.5
  let lacunarity : ℚ := 2.0
  let seed : Int := 42
  let lo := Int.fdiv (-(w.world_size : Int)) 2
  let hi := Int.fdiv (w.world_size : Int) 2
  (intRange lo hi).foldl (fun st chunk_x =>
    (intRange lo hi).foldl (fun st1 chunk_z =>
      (List.range w.chunk_size).foldl (fun st2 x =>
        (List.range w.chunk_size).foldl (fun st3 z =>
          genColumn noise2 rnd scale octaves persistence lacunarity seed
            chunk_x chunk_z x z st3) st2) st1) st)
    { world := w, ridx := 0, trees := [] }

/-- `World._generate_terrain`: run the loop nest and return the filled
world.  The locally collected `tree_positions` list (`.trees` of the final
state) is discarded when the method returns, exactly as in the source,
where the local variable goes out of scope without `_generate_trees` ever
being called. -/
def World.generate_terrain (w : World) (noise2 : Noise2) (rnd : RandStream) : World :=
  (terrainFold w noise2 rnd).world

/-- The chunk coordinates created by `_generate_world` (world.py lines
247-249), in loop order `x`, `z`, `y`: Python `range(-ws // 2, ws // 2)`
horizontally and `range(self.height)` vertically. -/
def chunkKeys (world_size height : Nat) : List (Int × Int × Int) :=
  (intRange (Int.fdiv (-(world_size : Int)) 2) (Int.fdiv (world_size : Int) 2)).flatMap
    (fun x =>
      (intRange (Int.fdiv (-(world_size : Int)) 2) (Int.fdiv (world_size : Int) 2)).flatMap
        (fun z => (List.range height).map (fun y : Nat => (x, (y : Int), z))))

/-- The chunk-creation loop of `_generate_world` (world.py lines 247-253):
insert a fresh `Chunk(position=k, size=self.chunk_size)` at each key.  The
`chunk.world = self` back-reference set there is the boundary-query hook
modelled by the lookup argument of `Chunk.is_face_visible`. -/
def addChunks (w : World) (keys : List (Int × Int × Int)) : World :=
  keys.foldl (fun acc k => setChunkAt acc k (Chunk.init k acc.chunk_size)) w

/-- `World._generate_world` (world.py lines 244-256): create all chunks,
then generate terrain.  `_generate_trees` is not called here (nor anywhere
else in the repository). -/
def World.generate_world (w : World) (noise2 : Noise2) (rnd : RandStream) : World :=
  (addChunks w (chunkKeys w.world_size w.height)).generate_terrain noise2 rnd

/-- The field state `World.__init__` (world.py lines 229-242) sets up
before generating: `chunk_size = 16`, `height = 2`, an empty chunk dict.
The Python default for `world_size` is 4. -/
def initialWorld (world_size : Nat) : World :=
  { world_size := world_size, chunk_size := 16, height := 2, chunks := fun _ => none }

/-- `World.__init__`: set up the fields, then `_generate_world`. -/
def World.init (noise2 : Noise2) (rnd : RandStream) (world_size : Nat) : World :=
  World.generate_world (initialWorld world_size) noise2 rnd

/-- `World._generate_trees` (world.py lines 421-450), dead code in the
repository: no caller exists.  `randints k` models the `k`-th
`np.random.randint(3, 6)` draw (a value in `[3, 6)` from the library,
unconstrained in the oracle). -/
def World.generate_trees (w : World) (randints : Nat → Int)
    (tree_positions : List (Int × Int × Int)) : World :=
  (tree_positions.foldl (fun (acc : World × Nat) pos =>
    let wx := pos.1
    let wy := pos.2.1
    let wz := pos.2.2
    let has_space := (intRange 1 8).all
      (fun check_y => acc.1.get_block wx (wy + check_y) wz == Block.AIR)
    if ¬ has_space then acc
    else
      let trunk_height := randints acc.2
      let w1 := (intRange 1 (trunk_height + 1)).foldl
        (fun wa y_offset => wa.set_block wx (wy + y_offset) wz Block.WOOD) acc.1
      let leaf_y := wy + trunk_height
      let w2 := (intRange 0 3).foldl (fun wa y_offset =>
        (intRange (-1) 2).foldl (fun wb x_offset =>
          (intRange (-1) 2).foldl (fun wc z_offset =>
            if |x_offset| = 1 ∧ |z_offset| = 1 ∧ y_offset ≠ 1 then wc
            else if x_offset = 0 ∧ z_offset = 0 ∧ y_offset = 0 then wc
            else wc.set_block (wx + x_offset) (leaf_y + y_offset) (wz + z_offset)
              Block.LEAVES) wb) wa) w1
      (w2, acc.2 + 1)) (w, 0)).1

/-- Invariant: every block stored in any chunk of `w` has a value at most
7 (`BEDROCK`), i.e. is none of `WOOD` (8) and `LEAVES` (9). -/
def blocksLE7 (w : World) : Prop :=
  ∀ c ch, w.chunks c = some ch → ∀ a b d, ch.blocks a b d ≤ 7

/-- Invariant: every chunk of `w` has edge length 16, as every chunk the
constructor creates does. -/
def chunkSizes16 (w : World) : Prop :=
  ∀ c ch, w.chunks c = some ch → ch.size = 16

/-- Relation between a generation state and the world the generation
started from: the scalar fields are unchanged and the chunk map is
populated at exactly the same keys. -/
def alignedTo (w0 : World) (st : GenState) : Prop :=
  st.world.chunk_size = w0.chunk_size ∧ st.world.height = w0.height ∧
    st.world.world_size = w0.world_size ∧
    ∀ c, (st.world.chunks c).isSome = (w0.chunks c).isSome

/-- The combined invariant carried through the terrain-generation folds. -/
def genInv (w0 : World) (st : GenState) : Prop :=
  alignedTo w0 st ∧ blocksLE7 st.world ∧ chunkSizes16 st.world

/-- Concrete fixture: a 16-chunk with a cleared dirty flag, for
exercising the accessors. -/
def sampleChunk : Chunk :=
  { position := (0, 0, 0), size := 16, blocks := fun _ _ _ => 0, needs_update := false }

/-- Concrete fixture: an edge-length-3 chunk filled with STONE. -/
def solidChunk : Chunk :=
  { position := (0, 0, 0), size := 3, blocks := fun _ _ _ => Block.STONE,
    needs_update := false }

/-- Concrete fixture: an edge-length-3 chunk holding a single STONE block
at its center, everything else AIR. -/
def loneBlockChunk : Chunk :=
  { position := (0, 0, 0), size := 3,
    blocks := fun a b d => if a = 1 ∧ b = 1 ∧ d = 1 then Block.STONE else Block.AIR,
    needs_update := false }

/-- Concrete fixture: a world with no chunks at all. -/
def emptyWorld : World :=
  { world_size := 4, chunk_size := 16, height := 2, chunks := fun _ => none }

/-- Concrete fixture: a world holding exactly one chunk, at chunk
coordinate `(-1, 0, 0)`. -/
def oneChunkWorld : World :=
  { world_size := 4, chunk_size := 16, height := 2,
    chunks := fun c => if c = (-1, 0, 0) then some (Chunk.init (-1, 0, 0) 16) else none }

lemma chunk_set_get_core (c : Chunk) (x y z : Int) (t : Nat)
    (hb : c.inBounds x y z) (ht : t < 256) :
    (c.set_block x y z t).get_block x y z = t ∧
      (c.set_block x y z t).needs_update = true := by
  obtain ⟨h1, h2, h3, h4, h5, h6⟩ := hb
  simp [Chunk.set_block, Chunk.get_block, Chunk.inBounds, h1, h2, h3, h4, h5, h6,
    Nat.mod_eq_of_lt ht]

/-- C5: for every chunk, every in-bounds local coordinate and every block
value below 256 (in particular every BlockType, all of which are at most
9): after `set_block`, `get_block` returns the value written, and
`needs_update` is set. -/
theorem chunk_set_then_get (c : Chunk) (x y z : Int) (t : Nat)
    (hb : c.inBounds x y z) (ht : t < 256) :
    (c.set_block x y z t).get_block x y z = t ∧
      (c.set_block x y z t).needs_update = true :=
  chunk_set_get_core c x y z t hb ht

/-- Witness for `chunk_set_then_get` at a concrete chunk whose dirty flag
starts cleared. -/
theorem chunk_set_then_get_witness :
    sampleChunk.inBounds 3 4 5 ∧ (9 : Nat) < 256 ∧
      ((sampleChunk.set_block 3 4 5 9).get_block 3 4 5 = 9 ∧
        (sampleChunk.set_block 3 4 5 9).needs_update = true) :=
  ⟨by decide, by decide, chunk_set_then_get sampleChunk 3 4 5 9 (by decide) (by decide)⟩

/-- C6: for every chunk and every out-of-bounds local coordinate,
`get_block` returns AIR and `set_block` returns the chunk unchanged (same
blocks, same `needs_update` flag). -/
theorem chunk_out_of_bounds_accessors (c : Chunk) (x y z : Int) (t : Nat)
    (hb : ¬ c.inBounds x y z) :
    c.get_block x y z = Block.AIR ∧ c.set_block x y z t = c := by
  unfold Chunk.get_block Chunk.set_block
  rw [if_neg hb, if_neg hb]
  exact ⟨rfl, rfl⟩

/-- Witness for `chunk_out_of_bounds_accessors` at local coordinate
`(16, 0, 0)`, outside a size-16 chunk. -/
theorem chunk_out_of_bounds_accessors_witness :
    ¬ sampleChunk.inBounds 16 0 0 ∧
      (sampleChunk.get_block 16 0 0 = Block.AIR ∧
        sampleChunk.set_block 16 0 0 3 = sampleChunk) :=
  ⟨by decide, chunk_out_of_bounds_accessors sampleChunk 16 0 0 3 (by decide)⟩

lemma is_face_visible_of_inBounds (c : Chunk) (w : Option (Int → Int → Int → Nat))
    (x y z dx dy dz : Int) (h : c.inBounds (x + dx) (y + dy) (z + dz)) :
    c.is_face_visible w x y z dx dy dz =
      decide (c.blocks (x + dx) (y + dy) (z + dz) = Block.AIR) := by
  simp only [Chunk.is_face_visible]
  rw [if_neg (not_not_intro h)]

lemma is_face_visible_true_of_air (c : Chunk) (w : Option (Int → Int → Int → Nat))
    (x y z dx dy dz : Int) (h : c.inBounds (x + dx) (y + dy) (z + dz))
    (ha : c.blocks (x + dx) (y + dy) (z + dz) = Block.AIR) :
    c.is_face_visible w x y z dx dy dz = true := by
  rw [is_face_visible_of_inBounds c w x y z dx dy dz h]
  simp [ha]

lemma is_face_visible_false_of_solid (c : Chunk) (w : Option (Int → Int → Int → Nat))
    (x y z dx dy dz : Int) (h : c.inBounds (x + dx) (y + dy) (z + dz))
    (ha : c.blocks (x + dx) (y + dy) (z + dz) ≠ Block.AIR) :
    c.is_face_visible w x y z dx dy dz = false := by
  rw [is_face_visible_of_inBounds c w x y z dx dy dz h]
  simp [ha]

/-- C7: for an in-bounds neighbor the face is visible iff that neighbor is
AIR; a block whose six in-bounds neighbors are all non-AIR has zero
visible faces, and one whose six in-bounds neighbors are all AIR has
exactly six. -/
theorem face_visible_iff_neighbor_air (c : Chunk) (w : Option (Int → Int → Int → Nat))
    (x y z : Int) :
    (∀ dx dy dz : Int, (dx, dy, dz) ∈ faceDirections →
        c.inBounds (x + dx) (y + dy) (z + dz) →
        (c.is_face_visible w x y z dx dy dz = true ↔
          c.blocks (x + dx) (y + dy) (z + dz) = Block.AIR)) ∧
    ((∀ d ∈ faceDirections, c.inBounds (x + d.1) (y + d.2.1) (z + d.2.2) ∧
        c.blocks (x + d.1) (y + d.2.1) (z + d.2.2) ≠ Block.AIR) →
      c.visibleFaceCount w x y z = 0) ∧
    ((∀ d ∈ faceDirections, c.inBounds (x + d.1) (y + d.2.1) (z + d.2.2) ∧
        c.blocks (x + d.1) (y + d.2.1) (z + d.2.2) = Block.AIR) →
      c.visibleFaceCount w x y z = 6) := by
  refine ⟨?_, ?_, ?_⟩
  · intro dx dy dz _ hb
    rw [is_face_visible_of_inBounds c w x y z dx dy dz hb]
    simp
  · intro h
    have v1 := is_face_visible_false_of_solid c w x y z 0 1 0
      (h (0, 1, 0) (by simp [faceDirections])).1 (h (0, 1, 0) (by simp [faceDirections])).2
    have v2 := is_face_visible_false_of_solid c w x y z 0 (-1) 0
      (h (0, -1, 0) (by simp [faceDirections])).1 (h (0, -1, 0) (by simp [faceDirections])).2
    have v3 := is_face_visible_false_of_solid c w x y z 0 0 1
      (h (0, 0, 1) (by simp [faceDirections])).1 (h (0, 0, 1) (by simp [faceDirections])).2
    have v4 := is_face_visible_false_of_solid c w x y z 0 0 (-1)
      (h (0, 0, -1) (by simp [faceDirections])).1 (h (0, 0, -1) (by simp [faceDirections])).2
    have v5 := is_face_visible_false_of_solid c w x y z 1 0 0
      (h (1, 0, 0) (by simp [faceDirections])).1 (h (1, 0, 0) (by simp [faceDirections])).2
    have v6 := is_face_visible_false_of_solid c w x y z (-1) 0 0
      (h ((-1), 0, 0) (by simp [faceDirections])).1 (h ((-1), 0, 0) (by simp [faceDirections])).2
    simp [Chunk.visibleFaceCount, faceDirections, v1, v2, v3, v4, v5, v6]
  · intro h
    have v1 := is_face_visible_true_of_air c w x y z 0 1 0
      (h (0, 1, 0) (by simp [faceDirections])).1 (h (0, 1, 0) (by simp [faceDirections])).2
    have v2 := is_face_visible_true_of_air c w x y z 0 (-1) 0
      (h (0, -1, 0) (by simp [faceDirections])).1 (h (0, -1, 0) (by simp [faceDirections])).2
    have v3 := is_face_visible_true_of_air c w x y z 0 0 1
      (h (0, 0, 1) (by simp [faceDirections])).1 (h (0, 0, 1) (by simp [faceDirections])).2
    have v4 := is_face_visible_true_of_air c w x y z 0 0 (-1)
      (h (0, 0, -1) (by simp [faceDirections])).1 (h (0, 0, -1) (by simp [faceDirections])).2
    have v5 := is_face_visible_true_of_air c w x y z 1 0 0
      (h (1, 0, 0) (by simp [faceDirections])).1 (h (1, 0, 0) (by simp [faceDirections])).2
    have v6 := is_face_visible_true_of_air c w x y z (-1) 0 0
      (h ((-1), 0, 0) (by simp [faceDirections])).1 (h ((-1), 0, 0) (by simp [faceDirections])).2
    simp [Chunk.visibleFaceCount, faceDirections, v1, v2, v3, v4, v5, v6]

/-- Witness for `face_visible_iff_neighbor_air`: a fully STONE chunk gives
zero visible faces at its center, a chunk with a lone STONE block gives
six, and the in-bounds rule decides a single face of the lone block. -/
theorem face_visible_iff_neighbor_air_witness :
    (solidChunk.visibleFaceCount none 1 1 1 = 0) ∧
      (loneBlockChunk.visibleFaceCount none 1 1 1 = 6) ∧
      (loneBlockChunk.is_face_visible none 1 1 1 0 1 0 = true ↔
        loneBlockChunk.blocks (1 + 0) (1 + 1) (1 + 0) = Block.AIR) :=
  ⟨(face_visible_iff_neighbor_air solidChunk none 1 1 1).2.1 (by decide),
    (face_visible_iff_neighbor_air loneBlockChunk none 1 1 1).2.2 (by decide),
    (face_visible_iff_neighbor_air loneBlockChunk none 1 1 1).1 0 1 0 (by decide) (by decide)⟩

/-- C2: for a neighbor outside the chunk's local bounds, the face is
reported visible unconditionally when the step is upward (`dy = 1`) or has
a nonzero x or z component, whatever world lookup is attached; otherwise
(the purely-downward step) the test is fail-open `true` with no world
reference, and with a world reference it delegates to `World.get_block` at
the world-space neighbor and is visible iff that call returns AIR. -/
theorem face_visible_out_of_bounds (c : Chunk) (x y z dx dy dz : Int)
    (hb : ¬ c.inBounds (x + dx) (y + dy) (z + dz)) :
    ((dy = 1 ∨ dx ≠ 0 ∨ dz ≠ 0) →
      ∀ w : Option (Int → Int → Int → Nat), c.is_face_visible w x y z dx dy dz = true) ∧
    ((dy ≠ 1 ∧ dx = 0 ∧ dz = 0) →
      c.is_face_visible none x y z dx dy dz = true ∧
      ∀ world : World, c.is_face_visible (some world.get_block) x y z dx dy dz =
        decide (world.get_block (x + c.position.1 * (c.size : Int) + dx)
          (y + c.position.2.1 * (c.size : Int) + dy)
          (z + c.position.2.2 * (c.size : Int) + dz) = Block.AIR)) := by
  constructor
  · intro hd w
    simp only [Chunk.is_face_visible]
    rw [if_pos hb, if_pos hd]
  · rintro ⟨h1, h2, h3⟩
    have hd : ¬ (dy = 1 ∨ dx ≠ 0 ∨ dz ≠ 0) := by
      push_neg
      exact ⟨h1, h2, h3⟩
    constructor
    · simp only [Chunk.is_face_visible]
      rw [if_pos hb, if_neg hd]
    · intro world
      simp only [Chunk.is_face_visible]
      rw [if_pos hb, if_neg hd]

/-- Witness for `face_visible_out_of_bounds`: at a boundary cell of a
size-16 chunk, a horizontal out-of-bounds step is visible by default, and
the downward step out of the chunk bottom delegates to the (empty) world,
which reports AIR. -/
theorem face_visible_out_of_bounds_witness :
    (sampleChunk.is_face_visible none 15 8 15 1 0 0 = true) ∧
      (sampleChunk.is_face_visible none 0 0 0 0 (-1) 0 = true) ∧
      (sampleChunk.is_face_visible (some emptyWorld.get_block) 0 0 0 0 (-1) 0 =
        decide (emptyWorld.get_block
          (0 + sampleChunk.position.1 * (sampleChunk.size : Int) + 0)
          (0 + sampleChunk.position.2.1 * (sampleChunk.size : Int) + (-1))
          (0 + sampleChunk.position.2.2 * (sampleChunk.size : Int) + 0) = Block.AIR)) :=
  ⟨(face_visible_out_of_bounds sampleChunk 15 8 15 1 0 0 (by decide)).1
      (by right; left; decide) none,
    ((face_visible_out_of_bounds sampleChunk 0 0 0 0 (-1) 0 (by decide)).2
      ⟨by decide, rfl, rfl⟩).1,
    ((face_visible_out_of_bounds sampleChunk 0 0 0 0 (-1) 0 (by decide)).2
      ⟨by decide, rfl, rfl⟩).2 emptyWorld⟩

/-- C3: with `chunk_size = 16`, the chunk coordinate the world accessors
compute is the floored quotient (characterized by
`c * 16 ≤ v < (c + 1) * 16`, so `-1` maps to chunk `-1`, not `0`), the
local coordinate lies in `[0, 16)`, and `chunkCoord * 16 + localCoord`
reconstructs the world coordinate. -/
theorem world_coordinate_decomposition (w : World) (v : Int) (h : w.chunk_size = 16) :
    w.chunkCoordOf (-1) = -1 ∧
      (w.chunkCoordOf v * 16 ≤ v ∧ v < (w.chunkCoordOf v + 1) * 16) ∧
      (0 ≤ w.localCoordOf v ∧ w.localCoordOf v < 16) ∧
      w.chunkCoordOf v * 16 + w.localCoordOf v = v := by
  unfold World.chunkCoordOf World.localCoordOf
  rw [h]
  have h16 : ((16 : Nat) : Int) = (16 : Int) := by norm_num
  rw [h16]
  have h1 := Int.fdiv_add_fmod v 16
  have h2 := Int.fmod_nonneg' v (show (0 : Int) < 16 by decide)
  have h3 := Int.fmod_lt_of_pos v (show (0 : Int) < 16 by decide)
  refine ⟨by decide, ⟨?_, ?_⟩, ⟨h2, h3⟩, ?_⟩ <;> omega

/-- Witness for `world_coordinate_decomposition` at world coordinate `-1`
in a world with the constructed chunk size. -/
theorem world_coordinate_decomposition_witness :
    emptyWorld.chunk_size = 16 ∧
      (emptyWorld.chunkCoordOf (-1) = -1 ∧
        (emptyWorld.chunkCoordOf (-1) * 16 ≤ -1 ∧
          (-1 : Int) < (emptyWorld.chunkCoordOf (-1) + 1) * 16) ∧
        (0 ≤ emptyWorld.localCoordOf (-1) ∧ emptyWorld.localCoordOf (-1) < 16) ∧
        emptyWorld.chunkCoordOf (-1) * 16 + emptyWorld.localCoordOf (-1) = -1) :=
  ⟨rfl, world_coordinate_decomposition emptyWorld (-1) rfl⟩

/-- C4: at a world coordinate whose chunk coordinate has no chunk in the
map, `get_block` returns AIR and `set_block` returns the world completely
unchanged. -/
theorem world_missing_chunk_accessors (w : World) (x y z : Int) (t : Nat)
    (h : w.get_chunk (w.chunkCoordOf x) (w.chunkCoordOf y) (w.chunkCoordOf z) = none) :
    w.get_block x y z = Block.AIR ∧ w.set_block x y z t = w := by
  unfold World.get_block World.set_block
  rw [h]
  exact ⟨rfl, rfl⟩

/-- Witness for `world_missing_chunk_accessors` on a chunkless world. -/
theorem world_missing_chunk_accessors_witness :
    emptyWorld.get_chunk (emptyWorld.chunkCoordOf 5) (emptyWorld.chunkCoordOf (-3))
        (emptyWorld.chunkCoordOf 100) = none ∧
      (emptyWorld.get_block 5 (-3) 100 = Block.AIR ∧
        emptyWorld.set_block 5 (-3) 100 1 = emptyWorld) :=
  ⟨rfl, world_missing_chunk_accessors emptyWorld 5 (-3) 100 1 rfl⟩

/-- C10: in a world with the constructed chunk size whose chunk map holds
a (size-16, as all constructed chunks are) chunk at the target's chunk
coordinate, `set_block` followed by `get_block` at the same world
coordinate returns the value written, for every block value below 256 —
in particular for every BlockType — including at negative world
coordinates. -/
theorem world_set_then_get (w : World) (x y z : Int) (t : Nat) (ch : Chunk)
    (hcs : w.chunk_size = 16)
    (hch : w.get_chunk (w.chunkCoordOf x) (w.chunkCoordOf y) (w.chunkCoordOf z) = some ch)
    (hsz : ch.size = 16) (ht : t < 256) :
    (w.set_block x y z t).get_block x y z = t := by
  have hl : ∀ v : Int, 0 ≤ w.localCoordOf v ∧ w.localCoordOf v < 16 := by
    intro v
    unfold World.localCoordOf
    rw [hcs]
    have h16 : ((16 : Nat) : Int) = (16 : Int) := by norm_num
    rw [h16]
    exact ⟨Int.fmod_nonneg' v (by decide), Int.fmod_lt_of_pos v (by decide)⟩
  have hb : ch.inBounds (w.localCoordOf x) (w.localCoordOf y) (w.localCoordOf z) := by
    rw [Chunk.inBounds, hsz]
    have hx := hl x
    have hy := hl y
    have hz := hl z
    norm_num
    exact ⟨hx.1, hx.2, hy.1, hy.2, hz.1, hz.2⟩
  unfold World.set_block
  rw [hch]
  unfold World.get_block World.get_chunk World.chunkCoordOf World.localCoordOf
  simp only [if_true]
  have hcore := chunk_set_get_core ch (w.localCoordOf x) (w.localCoordOf y)
    (w.localCoordOf z) t hb ht
  unfold World.localCoordOf at hcore
  exact hcore.1

/-- Witness for `world_set_then_get` writing STONE at the negative world
coordinate `(-1, 0, 0)`, which lives in chunk `(-1, 0, 0)`. -/
theorem world_set_then_get_witness :
    oneChunkWorld.chunk_size = 16 ∧
      oneChunkWorld.get_chunk (oneChunkWorld.chunkCoordOf (-1))
        (oneChunkWorld.chunkCoordOf 0) (oneChunkWorld.chunkCoordOf 0) =
        some (Chunk.init (-1, 0, 0) 16) ∧
      (Chunk.init (-1, 0, 0) 16).size = 16 ∧ (3 : Nat) < 256 ∧
      (oneChunkWorld.set_block (-1) 0 0 3).get_block (-1) 0 0 = 3 :=
  ⟨rfl, rfl, rfl, by decide,
    world_set_then_get oneChunkWorld (-1) 0 0 3 (Chunk.init (-1, 0, 0) 16) rfl
      rfl rfl (by decide)⟩

/-- C8: for a noise value in `[-1, 1]`, the surface height used to fill
the column is `max(1, floor((noise + 1) * 10) + 16)` — the source's
truncating `int(...)` agrees with `floor` because its argument is
nonnegative there. -/
theorem column_height_formula (q : ℚ) (h1 : -1 ≤ q) (_h2 : q ≤ 1) :
    columnHeight q = max 1 (⌊(q + 1) * 10⌋ + 16) := by
  unfold columnHeight pyInt
  have hpos : ¬ ((q + 1) * 10 < 0) := by
    push_neg
    have hq : (0 : ℚ) ≤ q + 1 := by linarith
    have := mul_nonneg hq (by norm_num : (0 : ℚ) ≤ 10)
    linarith
  rw [if_neg hpos]
  exact max_comm _ _

/-- Witness for `column_height_formula` at the noise value `1/2`. -/
theorem column_height_formula_witness :
    (-1 ≤ (1/2 : ℚ) ∧ (1/2 : ℚ) ≤ 1) ∧
      columnHeight (1/2) = max 1 (⌊((1/2 : ℚ) + 1) * 10⌋ + 16) :=
  ⟨⟨by norm_num, by norm_num⟩, column_height_formula (1/2) (by norm_num) (by norm_num)⟩

lemma foldl_step_preserve {α β : Type} (P : α → Prop) (f : α → β → α) (l : List β)
    (s : α) (h : ∀ st b, P st → P (f st b)) (hs : P s) : P (l.foldl f s) := by
  induction l generalizing s with
  | nil => exact hs
  | cons b bs ih => exact ih (f s b) (h s b hs)

lemma terrainBlock_world_eq (rnd : RandStream) (wy h : Int) (tp m : ℚ) (st : GenState) :
    (terrainBlock rnd wy h tp m st).2.world = st.world := by
  simp only [terrainBlock, drawRand]
  split_ifs <;> rfl

lemma terrainBlock_le7 (rnd : RandStream) (wy h : Int) (tp m : ℚ) (st : GenState) :
    (terrainBlock rnd wy h tp m st).1 ≤ 7 := by
  simp only [terrainBlock, drawRand]
  split_ifs <;>
    norm_num [Block.BEDROCK, Block.STONE, Block.DIRT, Block.SNOW, Block.SAND,
      Block.GRASS, Block.WATER, Block.AIR]

lemma treeCheck_world_eq (rnd : RandStream) (wx wy wz : Int) (bt : Nat) (st : GenState) :
    (treeCheck rnd wx wy wz bt st).world = st.world := by
  simp only [treeCheck, drawRand]
  split_ifs <;> rfl

lemma set_block_size_eq (c : Chunk) (x y z : Int) (t : Nat) :
    (c.set_block x y z t).size = c.size := by
  unfold Chunk.set_block
  split_ifs <;> rfl

lemma set_block_blocks_le7 (c : Chunk) (x y z : Int) (t : Nat)
    (hc : ∀ a b d, c.blocks a b d ≤ 7) (ht : t ≤ 7) :
    ∀ a b d, (c.set_block x y z t).blocks a b d ≤ 7 := by
  intro a b d
  unfold Chunk.set_block
  split_ifs with h
  · dsimp only
    split_ifs with he
    · exact le_trans (Nat.mod_le t 256) ht
    · exact hc a b d
  · exact hc a b d

lemma store_inv (w0 : World) (st2 : GenState) (K : Int × Int × Int) (chunk : Chunk)
    (x y z : Int) (bt : Nat) (hW : st2.world.chunks K = some chunk)
    (hinv : genInv w0 st2) (hbt : bt ≤ 7) :
    genInv w0 { st2 with world := setChunkAt st2.world K (chunk.set_block x y z bt) } := by
  obtain ⟨⟨ha1, ha2, ha3, ha4⟩, hb7, hs16⟩ := hinv
  refine ⟨⟨ha1, ha2, ha3, ?_⟩, ?_, ?_⟩
  · intro c
    show ((setChunkAt st2.world K _).chunks c).isSome = _
    unfold setChunkAt
    dsimp only
    by_cases hc : c = K
    · rw [if_pos hc, ← ha4 c, hc, hW]
      rfl
    · rw [if_neg hc]
      exact ha4 c
  · intro c ch hch a b d
    replace hch : (if c = K then some (chunk.set_block x y z bt) else st2.world.chunks c)
        = some ch := hch
    by_cases hc : c = K
    · rw [if_pos hc] at hch
      obtain rfl : chunk.set_block x y z bt = ch := Option.some.inj hch
      exact set_block_blocks_le7 chunk x y z bt (hb7 K chunk hW) hbt a b d
    · rw [if_neg hc] at hch
      exact hb7 c ch hch a b d
  · intro c ch hch
    replace hch : (if c = K then some (chunk.set_block x y z bt) else st2.world.chunks c)
        = some ch := hch
    by_cases hc : c = K
    · rw [if_pos hc] at hch
      obtain rfl : chunk.set_block x y z bt = ch := Option.some.inj hch
      rw [set_block_size_eq]
      exact hs16 K chunk hW
    · rw [if_neg hc] at hch
      exact hs16 c ch hch

lemma genCell_inv (w0 : World) (noise2 : Noise2) (rnd : RandStream) (scale : ℚ)
    (seed : Int) (chunk_x chunk_z : Int) (chunk_y : Nat) (x z : Nat) (height : Int)
    (y : Nat) (st : GenState) (h : genInv w0 st) :
    genInv w0 (genCell noise2 rnd scale seed chunk_x chunk_z chunk_y x z height y st) := by
  unfold genCell
  cases heq : st.world.chunks (chunk_x, (chunk_y : Int), chunk_z) with
  | none =>
    exact h
  | some chunk =>
    have hw : ∀ wx wy wz bt hh tp mo,
        (treeCheck rnd wx wy wz bt (terrainBlock rnd wy hh tp mo st).2).world
          = st.world := by
      intro wx wy wz bt hh tp mo
      rw [treeCheck_world_eq, terrainBlock_world_eq]
    apply store_inv
    · rw [hw]
      exact heq
    · obtain ⟨⟨ha1, ha2, ha3, ha4⟩, hb7, hs16⟩ := h
      refine ⟨⟨?_, ?_, ?_, ?_⟩, ?_, ?_⟩ <;> rw [hw]
      · exact ha1
      · exact ha2
      · exact ha3
      · exact ha4
      · exact hb7
      · exact hs16
    · exact terrainBlock_le7 rnd _ height _ _ st

lemma genColumn_inv (w0 : World) (noise2 : Noise2) (rnd : RandStream) (scale : ℚ)
    (octaves : Nat) (persistence lacunarity : ℚ) (seed : Int) (chunk_x chunk_z : Int)
    (x z : Nat) (st : GenState) (h : genInv w0 st) :
    genInv w0 (genColumn noise2 rnd scale octaves persistence lacunarity seed
      chunk_x chunk_z x z st) := by
  unfold genColumn
  apply foldl_step_preserve (genInv w0)
  · intro s1 chunk_y hs1
    apply foldl_step_preserve (genInv w0)
    · intro s2 y hs2
      exact genCell_inv w0 noise2 rnd scale seed chunk_x chunk_z chunk_y x z _ y s2 hs2
    · exact hs1
  · exact h

lemma terrainFold_inv (w : World) (noise2 : Noise2) (rnd : RandStream)
    (hb7 : blocksLE7 w) (hs16 : chunkSizes16 w) :
    genInv w (terrainFold w noise2 rnd) := by
  unfold terrainFold
  apply foldl_step_preserve (genInv w)
  · intro s1 chunk_x hs1
    apply foldl_step_preserve (genInv w)
    · intro s2 chunk_z hs2
      apply foldl_step_preserve (genInv w)
      · intro s3 x hs3
        apply foldl_step_preserve (genInv w)
        · intro s4 z hs4
          exact genColumn_inv w noise2 rnd _ _ _ _ _ chunk_x chunk_z x z s4 hs4
        · exact hs3
      · exact hs2
    · exact hs1
  · exact ⟨⟨rfl, rfl, rfl, fun _ => rfl⟩, hb7, hs16⟩

lemma addChunks_fields (w : World) (keys : List (Int × Int × Int)) :
    (addChunks w keys).chunk_size = w.chunk_size ∧
      (addChunks w keys).height = w.height ∧
      (addChunks w keys).world_size = w.world_size := by
  induction keys generalizing w with
  | nil => exact ⟨rfl, rfl, rfl⟩
  | cons k ks ih => exact ih (setChunkAt w k (Chunk.init k w.chunk_size))

lemma addChunks_isSome (w : World) (keys : List (Int × Int × Int)) (c : Int × Int × Int) :
    ((addChunks w keys).chunks c).isSome = true ↔
      (c ∈ keys ∨ (w.chunks c).isSome = true) := by
  induction keys generalizing w with
  | nil => simp [addChunks]
  | cons k ks ih =>
    have hstep : addChunks w (k :: ks)
        = addChunks (setChunkAt w k (Chunk.init k w.chunk_size)) ks := rfl
    rw [hstep, ih]
    by_cases hc : c = k
    · subst hc
      simp [setChunkAt]
    · simp [setChunkAt, hc]

lemma addChunks_some (w : World) (keys : List (Int × Int × Int)) (c : Int × Int × Int)
    (ch : Chunk) (h : (addChunks w keys).chunks c = some ch) :
    (∃ k, ch = Chunk.init k w.chunk_size) ∨ w.chunks c = some ch := by
  induction keys generalizing w with
  | nil => exact Or.inr h
  | cons k ks ih =>
    have hstep : addChunks w (k :: ks)
        = addChunks (setChunkAt w k (Chunk.init k w.chunk_size)) ks := rfl
    rw [hstep] at h
    rcases ih (setChunkAt w k (Chunk.init k w.chunk_size)) h with hL | hR
    · exact Or.inl hL
    · replace hR : (if c = k then some (Chunk.init k w.chunk_size) else w.chunks c)
          = some ch := hR
      by_cases hc : c = k
      · rw [if_pos hc] at hR
        exact Or.inl ⟨k, (Option.some.inj hR).symm⟩
      · rw [if_neg hc] at hR
        exact Or.inr hR

lemma mem_intRange (a b x : Int) : x ∈ intRange a b ↔ a ≤ x ∧ x < b := by
  unfold intRange
  rw [List.mem_map]
  constructor
  · rintro ⟨i, hi, rfl⟩
    rw [List.mem_range] at hi
    omega
  · intro hab
    refine ⟨(x - a).toNat, ?_, ?_⟩
    · rw [List.mem_range]
      omega
    · omega

lemma mem_chunkKeys (n h : Nat) (c : Int × Int × Int) :
    c ∈ chunkKeys n h ↔
      (Int.fdiv (-(n : Int)) 2 ≤ c.1 ∧ c.1 < Int.fdiv (n : Int) 2 ∧
        0 ≤ c.2.1 ∧ c.2.1 < (h : Int) ∧
        Int.fdiv (-(n : Int)) 2 ≤ c.2.2 ∧ c.2.2 < Int.fdiv (n : Int) 2) := by
  obtain ⟨cx, cy, cz⟩ := c
  unfold chunkKeys
  simp only [List.mem_flatMap, List.mem_map, List.mem_range, mem_intRange,
    Prod.mk.injEq]
  constructor
  · rintro ⟨x, ⟨hx1, hx2⟩, z, ⟨hz1, hz2⟩, y, hy, rfl, rfl, rfl⟩
    refine ⟨hx1, hx2, ?_, ?_, hz1, hz2⟩
    · exact Int.natCast_nonneg y
    · omega
  · rintro ⟨h1, h2, h3, h4, h5, h6⟩
    refine ⟨cx, ⟨h1, h2⟩, cz, ⟨h5, h6⟩, cy.toNat, by omega, rfl, by omega, rfl⟩

lemma set_block_isSome (w : World) (x y z : Int) (t : Nat) (c : Int × Int × Int) :
    ((w.set_block x y z t).chunks c).isSome = (w.chunks c).isSome := by
  unfold World.set_block
  cases heq : w.get_chunk (w.chunkCoordOf x) (w.chunkCoordOf y) (w.chunkCoordOf z) with
  | none => rfl
  | some ch =>
    dsimp only
    by_cases hc : c = (w.chunkCoordOf x, w.chunkCoordOf y, w.chunkCoordOf z)
    · rw [if_pos hc, hc]
      have : w.chunks (w.chunkCoordOf x, w.chunkCoordOf y, w.chunkCoordOf z) = some ch :=
        heq
      rw [this]
      rfl
    · rw [if_neg hc]

lemma addChunks_init_blocksLE7 (ws : Nat) (keys : List (Int × Int × Int)) :
    blocksLE7 (addChunks (initialWorld ws) keys) := by
  intro c ch hch a b d
  rcases addChunks_some (initialWorld ws) keys c ch hch with ⟨k, rfl⟩ | hR
  · exact Nat.zero_le 7
  · exact Option.noConfusion hR

lemma addChunks_init_sizes16 (ws : Nat) (keys : List (Int × Int × Int)) :
    chunkSizes16 (addChunks (initialWorld ws) keys) := by
  intro c ch hch
  rcases addChunks_some (initialWorld ws) keys c ch hch with ⟨k, rfl⟩ | hR
  · rfl
  · exact Option.noConfusion hR

lemma init_world_inv (noise2 : Noise2) (rnd : RandStream) (ws : Nat) :
    blocksLE7 (World.init noise2 rnd ws) ∧
      ∀ c, ((World.init noise2 rnd ws).chunks c).isSome
        = ((addChunks (initialWorld ws) (chunkKeys ws 2)).chunks c).isSome := by
  have hinv := terrainFold_inv (addChunks (initialWorld ws) (chunkKeys ws 2)) noise2 rnd
    (addChunks_init_blocksLE7 ws _) (addChunks_init_sizes16 ws _)
  exact ⟨hinv.2.1, hinv.1.2.2.2⟩

/-- C9: after construction with horizontal extent `ws` and the
constructor's vertical extent of 2 chunks, a chunk exists at a chunk
coordinate exactly when it lies in the dense rectangular region
`[-ws//2, ws//2) × [0, 2) × [-ws//2, ws//2)` (the bounds Python computes
with floored division, equal to `-ws/2` and `ws/2` for even `ws`); the
chunk map is a function of the coordinate, so each such coordinate holds
exactly one chunk; and `set_block` — the only mutating core operation —
never adds or removes a chunk from any world. -/
theorem generated_world_chunk_region (noise2 : Noise2) (rnd : RandStream) (ws : Nat) :
    (∀ c : Int × Int × Int,
        (((World.init noise2 rnd ws).chunks c).isSome = true ↔
          (Int.fdiv (-(ws : Int)) 2 ≤ c.1 ∧ c.1 < Int.fdiv (ws : Int) 2 ∧
            0 ≤ c.2.1 ∧ c.2.1 < 2 ∧
            Int.fdiv (-(ws : Int)) 2 ≤ c.2.2 ∧ c.2.2 < Int.fdiv (ws : Int) 2))) ∧
    (∀ (w : World) (x y z : Int) (t : Nat) (c : Int × Int × Int),
        ((w.set_block x y z t).chunks c).isSome = (w.chunks c).isSome) := by
  constructor
  · intro c
    have hdom := (init_world_inv noise2 rnd ws).2 c
    rw [hdom, addChunks_isSome, mem_chunkKeys]
    simp [initialWorld]
  · intro w x y z t c
    exact set_block_isSome w x y z t c

/-- Witness for `generated_world_chunk_region` with extent 4 and constant
oracles: chunk coordinate `(-2, 0, 0)` lies in the region, and one
`set_block` call on a concrete world preserves chunk existence. -/
theorem generated_world_chunk_region_witness :
    (((World.init (fun _ _ _ => 0) (fun _ => 1) 4).chunks ((-2), 0, 0)).isSome = true ↔
      (Int.fdiv (-((4 : Nat) : Int)) 2 ≤ ((-2 : Int), (0 : Int), (0 : Int)).1 ∧
        ((-2 : Int), (0 : Int), (0 : Int)).1 < Int.fdiv ((4 : Nat) : Int) 2 ∧
        0 ≤ ((-2 : Int), (0 : Int), (0 : Int)).2.1 ∧
        ((-2 : Int), (0 : Int), (0 : Int)).2.1 < 2 ∧
        Int.fdiv (-((4 : Nat) : Int)) 2 ≤ ((-2 : Int), (0 : Int), (0 : Int)).2.2 ∧
        ((-2 : Int), (0 : Int), (0 : Int)).2.2 < Int.fdiv ((4 : Nat) : Int) 2)) ∧
    ((emptyWorld.set_block 1 2 3 4).chunks (0, 0, 0)).isSome =
      (emptyWorld.chunks (0, 0, 0)).isSome :=
  ⟨(generated_world_chunk_region (fun _ _ _ => 0) (fun _ => 1) 4).1 ((-2), 0, 0),
    (generated_world_chunk_region (fun _ _ _ => 0) (fun _ => 1) 4).2 emptyWorld
      1 2 3 4 (0, 0, 0)⟩

/-- C1 (failing part of the claim): no generated world ever contains a
WOOD or LEAVES block, whatever the noise and random draws produce —
`_generate_terrain` only records candidate tree positions into a local
list, and the tree-planting second pass `_generate_trees` is never
invoked, so the claimed consequence "a generated world can contain WOOD
and LEAVES blocks" is false. -/
theorem generated_world_no_wood_or_leaves (noise2 : Noise2) (rnd : RandStream)
    (ws : Nat) (x y z : Int) :
    (World.init noise2 rnd ws).get_block x y z ≠ Block.WOOD ∧
      (World.init noise2 rnd ws).get_block x y z ≠ Block.LEAVES := by
  have hb7 := (init_world_inv noise2 rnd ws).1
  have hle : (World.init noise2 rnd ws).get_block x y z ≤ 7 := by
    unfold World.get_block
    cases heq : (World.init noise2 rnd ws).get_chunk
        ((World.init noise2 rnd ws).chunkCoordOf x)
        ((World.init noise2 rnd ws).chunkCoordOf y)
        ((World.init noise2 rnd ws).chunkCoordOf z) with
    | none =>
      show Block.AIR ≤ 7
      decide
    | some ch =>
      unfold Chunk.get_block
      dsimp only
      split_ifs with hbnd
      · exact hb7 _ ch heq _ _ _
      · decide
  refine ⟨fun hEq => ?_, fun hEq => ?_⟩
  · rw [hEq] at hle
    exact absurd hle (by decide)
  · rw [hEq] at hle
    exact absurd hle (by decide)

end MinecraftClone
